import Mathlib

set_option linter.unusedVariables false
set_option maxRecDepth 100000

/-! Shallow embedding of the micropython-lib usbd drivers
(`src/micropython/usbd/midi.py` and `src/micropython/usbd/cdc.py`) and
theorems about their descriptor generation, control-transfer handling,
ring buffer and bulk data paths.

Byte strings are modelled as `List Nat`; every byte that `ustruct.pack`
emits is reduced modulo its field width at the point of packing
(MicroPython `struct.pack` truncates integers to the field width and
silently ignores surplus arguments, unlike CPython). -/

/-- `RingBuf` (midi.py 18-44): fixed-size circular byte store. `data` is
the backing `bytearray(size)` (zero initialised). Assigning a value
outside 0..255 to a bytearray element raises in Python, so the theorems
below restrict stored values to bytes; `size = 0` would raise
`ZeroDivisionError` at the first `put`, so the theorems use `size ≥ 1`. -/
structure RingBuf where
  data : List Nat
  size : Nat
  index_put : Nat
  index_get : Nat
deriving DecidableEq

/-- `RingBuf.__init__(size)` (midi.py 19-23). -/
def RingBuf.init (size : Nat) : RingBuf :=
  { data := List.replicate size 0, size := size, index_put := 0, index_get := 0 }

/-- `RingBuf.put(value)` (midi.py 25-33): new state plus the Python
return value (`value` on success, `None` when the buffer is full). -/
def RingBuf.put (rb : RingBuf) (value : Nat) : RingBuf × Option Nat :=
  let next_index := (rb.index_put + 1) % rb.size
  if rb.index_get ≠ next_index then
    ({ rb with data := rb.data.set rb.index_put value, index_put := next_index }, some value)
  else
    (rb, none)

/-- `RingBuf.get()` (midi.py 35-41). -/
def RingBuf.get (rb : RingBuf) : RingBuf × Option Nat :=
  if rb.index_get = rb.index_put then
    (rb, none)
  else
    ({ rb with index_get := (rb.index_get + 1) % rb.size },
     some (rb.data.getD rb.index_get 0))

/-- `RingBuf.is_empty()` (midi.py 43-44). -/
def RingBuf.is_empty (rb : RingBuf) : Bool :=
  rb.index_get == rb.index_put

/-- Sequence of `put` calls, keeping only the state (the data path in
midi.py 107-109 ignores the return value of `put`). -/
def RingBuf.putList (rb : RingBuf) (xs : List Nat) : RingBuf :=
  xs.foldl (fun b x => (b.put x).1) rb

/-- `n` successive `get()` calls, collecting the returned bytes until the
buffer reports empty. -/
def RingBuf.getN (rb : RingBuf) : Nat → RingBuf × List Nat
  | 0 => (rb, [])
  | n + 1 =>
    match rb.get with
    | (rb2, some v) => ((RingBuf.getN rb2 n).1, v :: (RingBuf.getN rb2 n).2)
    | (rb2, none) => (rb2, [])

/-- Modelled from the spec: `EP_OUT_FLAG` comes from `usbd/utils.py`,
which is not under src/. A USB OUT endpoint address carries no direction
bit, so the flag is 0; no theorem below depends on this value. -/
def EP_OUT_FLAG : Nat := 0x00

/-- Modelled from the spec: `utils.endpoint_descriptor` is not under
src/. Standard 7-byte USB endpoint descriptor: bLength, bDescriptorType
5 (ENDPOINT), bEndpointAddress, bmAttributes (2 = bulk), wMaxPacketSize
little-endian, bInterval. The theorems below depend only on where these
bytes sit in the concatenation, not on the field layout. -/
def endpoint_descriptor (addr attributes maxPacket interval : Nat) : List Nat :=
  [7, 5, addr % 256, attributes % 256, maxPacket % 256, maxPacket / 256 % 256, interval % 256]

/-- `MIDIInterface._emb_id(is_tx, idx)` (midi.py 230-241):
`1 + 2 * (idx + (is_tx * self._num_rx))` with Python bool arithmetic. -/
def MIDIInterface.emb_id (num_rx : Nat) (is_tx : Bool) (idx : Nat) : Nat :=
  1 + 2 * (idx + (if is_tx then num_rx else 0))

/-- `ext_id = emb_id + 1`, exactly as computed in both loop bodies of
`MIDIInterface.get_itf_descriptor` (midi.py 200, 213). -/
def MIDIInterface.ext_id (num_rx : Nat) (is_tx : Bool) (idx : Nat) : Nat :=
  MIDIInterface.emb_id num_rx is_tx idx + 1

/-- Embedded jack IDs of the rx connections, in emission order. -/
def MIDIInterface.rxEmbIds (num_rx : Nat) : List Nat :=
  (List.range num_rx).map (MIDIInterface.emb_id num_rx false)

/-- Embedded jack IDs of the tx connections, in emission order. -/
def MIDIInterface.txEmbIds (num_rx num_tx : Nat) : List Nat :=
  (List.range num_tx).map (MIDIInterface.emb_id num_rx true)

/-- All embedded jack IDs generated for a device, rx group first. -/
def MIDIInterface.embIds (num_rx num_tx : Nat) : List Nat :=
  MIDIInterface.rxEmbIds num_rx ++ MIDIInterface.txEmbIds num_rx num_tx

/-- `jack_in_desc(bJackType, bJackID)` (midi.py 139-148),
pack format `<BBBBBB`. -/
def jack_in_desc (bJackType bJackID : Nat) : List Nat :=
  [6, 0x24, 0x02, bJackType % 256, bJackID % 256, 0]

/-- `jack_out_desc(bJackType, bJackID, bSourceId, bSourcePin)`
(midi.py 150-162), pack format `<BBBBBBBBB`. -/
def jack_out_desc (bJackType bJackID bSourceId bSourcePin : Nat) : List Nat :=
  [9, 0x24, 0x03, bJackType % 256, bJackID % 256, 1, bSourceId % 256, bSourcePin % 256, 0]

/-- The MS header of the MIDI streaming interface (midi.py 129-137),
pack format `<BBBHH`. The wTotalLength expression is transcribed verbatim:
`7 + 2 * (_JACK_IN_DESC_LEN + _JACK_OUT_DESC_LEN) * (num_rx + num_tx)`. -/
def cs_ms_interface (num_rx num_tx : Nat) : List Nat :=
  let wTotalLength := 7 + 2 * (6 + 9) * (num_rx + num_tx)
  [7, 0x24, 0x01, 0x00, 0x01, wTotalLength % 256, wTotalLength / 256 % 256]

/-- Jack descriptors emitted for rx connection `idx` (midi.py 198-208):
an embedded (type 1) MIDI-IN jack then an external (type 2) MIDI-OUT jack
sourced from it at pin `idx + 1`. -/
def MIDIInterface.rxJackChunk (num_rx idx : Nat) : List Nat :=
  jack_in_desc 1 (MIDIInterface.emb_id num_rx false idx) ++
    jack_out_desc 2 (MIDIInterface.ext_id num_rx false idx)
      (MIDIInterface.emb_id num_rx false idx) (idx + 1)

/-- Jack descriptors emitted for tx connection `idx` (midi.py 211-225):
an external (type 2) MIDI-IN jack then an embedded (type 1) MIDI-OUT jack
sourced from it at pin `idx + 1`. -/
def MIDIInterface.txJackChunk (num_rx idx : Nat) : List Nat :=
  jack_in_desc 2 (MIDIInterface.ext_id num_rx true idx) ++
    jack_out_desc 1 (MIDIInterface.emb_id num_rx true idx)
      (MIDIInterface.ext_id num_rx true idx) (idx + 1)

/-- All rx-side jack descriptors, in loop order. -/
def MIDIInterface.rxJacks (num_rx : Nat) : List Nat :=
  ((List.range num_rx).map (MIDIInterface.rxJackChunk num_rx)).flatten

/-- All tx-side jack descriptors, in loop order. -/
def MIDIInterface.txJacks (num_rx num_tx : Nat) : List Nat :=
  ((List.range num_tx).map (MIDIInterface.txJackChunk num_rx)).flatten

/-- `MIDIInterface.get_itf_descriptor` (midi.py 117-228): the parent
(standard) interface descriptor supplied by the framework, then the MS
header, then all rx jacks, then all tx jacks. -/
def MIDIInterface.get_itf_descriptor (desc : List Nat) (num_rx num_tx : Nat) : List Nat :=
  desc ++ cs_ms_interface num_rx num_tx ++
    MIDIInterface.rxJacks num_rx ++ MIDIInterface.txJacks num_rx num_tx

/-- Class-specific MS_GENERAL descriptor after the bulk OUT endpoint
(midi.py 255-262), pack format `<BBBB` plus one `B` per rx connection. -/
def MIDIInterface.cs_out (num_rx : Nat) : List Nat :=
  [(4 + num_rx) % 256, 0x25, 0x01, num_rx % 256] ++
    (List.range num_rx).map (fun idx => MIDIInterface.emb_id num_rx false idx % 256)

/-- Class-specific MS_GENERAL descriptor after the bulk IN endpoint
(midi.py 266-273). -/
def MIDIInterface.cs_in (num_rx num_tx : Nat) : List Nat :=
  [(4 + num_tx) % 256, 0x25, 0x01, num_tx % 256] ++
    (List.range num_tx).map (fun idx => MIDIInterface.emb_id num_rx true idx % 256)

/-- `MIDIInterface.get_endpoint_descriptors(ep_addr, str_idx)`
(midi.py 243-277): returns the descriptor bytes plus the endpoint
addresses `(ep_out, ep_in)` stored on the object. -/
def MIDIInterface.get_endpoint_descriptors (num_rx num_tx ep_addr : Nat) :
    List Nat × Nat × Nat :=
  let ep_out := (ep_addr + 1) ||| EP_OUT_FLAG
  let ep_in := ep_addr + 2
  (endpoint_descriptor ep_out 2 64 0 ++ MIDIInterface.cs_out num_rx ++
     endpoint_descriptor ep_in 2 64 0 ++ MIDIInterface.cs_in num_rx num_tx,
   ep_out, ep_in)

/-- Mutable state of a `MIDIInterface` object as used by the bulk data
path. Note two slips in the source kept out of the model: `__init__`
(midi.py 80-95) allocates `self._rx_buf` yet the data path reads
`self.rx_data`, and `self.rb` is never assigned anywhere; `rx_data` and
`rb` here stand for the buffer and ring buffer the data path uses.
`ep_out`/`ep_in` are `None` until enumeration; the data path only runs
after `get_endpoint_descriptors` has assigned them, so they are plain
numbers here. -/
structure MIDIInterface where
  num_rx : Nat
  num_tx : Nat
  ep_out : Nat
  ep_in : Nat
  rb : RingBuf
  rx_data : List Nat
deriving DecidableEq

/-- One transfer submission: `submit_xfer(ep, buffer, callback)` with the
callback identity left implicit (both submissions in the MIDI receive
path pass `self.receive_data_callback`). -/
structure Submission where
  ep : Nat
  buf : List Nat
deriving DecidableEq

/-- `MIDIInterface.receive_data_callback(ep_addr, result, xferred_bytes)`
(midi.py 107-110): puts each of the `xferred_bytes` received bytes into
the ring buffer (return value of `put` discarded), then resubmits the
receive buffer on the hard-coded endpoint `0x03`. -/
def MIDIInterface.receive_data_callback (s : MIDIInterface) (xferred_bytes : Nat) :
    MIDIInterface × Submission :=
  ({ s with
      rb := (List.range xferred_bytes).foldl
        (fun b i => (b.put (s.rx_data.getD i 0)).1) s.rb },
   { ep := 0x03, buf := s.rx_data })

/-- `MIDIInterface.start_receive_data()` (midi.py 112-115): submits the
receive buffer on `self.ep_in`. -/
def MIDIInterface.start_receive_data (s : MIDIInterface) : Submission :=
  { ep := s.ep_in, buf := s.rx_data }

/-- A `MIDIInterface` right after enumeration with endpoint base address
0: `get_endpoint_descriptors` assigned `ep_out` and `ep_in`. -/
def midiAfterEnum : MIDIInterface :=
  { num_rx := 1, num_tx := 1,
    ep_out := (MIDIInterface.get_endpoint_descriptors 1 1 0).2.1,
    ep_in := (MIDIInterface.get_endpoint_descriptors 1 1 0).2.2,
    rb := RingBuf.init 16, rx_data := List.replicate 64 0 }

/-- A `MIDIInterface` whose receive buffer starts with two received
bytes, for evaluating the byte-copy half of the receive callback. -/
def midiRxExample : MIDIInterface :=
  { num_rx := 1, num_tx := 1, ep_out := 1, ep_in := 2,
    rb := RingBuf.init 4, rx_data := [7, 9] ++ List.replicate 62 0 }

/-- Interface Association Descriptor (cdc.py 96-104),
pack format `<BBBBBBBB`: length 8, type 0xb, firstInterface, count 2,
class 2 (CDC), subclass 2 (ACM), protocol 0, reserved 0. -/
def cdcIAD (itf_idx : Nat) : List Nat :=
  [8, 0x0b, itf_idx % 256, 2, 2, 2, 0, 0]

/-- CDC Header functional descriptor (cdc.py 110-114), pack `<BBBH` with
cdc version 0x0120 little-endian. -/
def cdcHeaderFuncDesc : List Nat :=
  [5, 0x24, 0, 0x20, 0x01]

/-- Call-Management functional descriptor (cdc.py 118-123), pack
`<BBBBB`: capabilities 0 and `bDataInterface` hard-coded to 1. -/
def cdcCallManagementFuncDesc : List Nat :=
  [5, 0x24, 1, 0, 1]

/-- Abstract-Control-Management functional descriptor (cdc.py 127-131),
pack `<BBBB`, capabilities 0x6. -/
def cdcAbstractControlFuncDesc : List Nat :=
  [4, 0x24, 2, 6]

/-- Union functional descriptor (cdc.py 134-139). The source packs five
values `(5, 0x24, 6, itf_idx, itf_idx + 1)` with format `<BBBH`:
MicroPython `struct.pack` consumes only as many arguments as the format
names and silently ignores the surplus, so `itf_idx` fills the final
two-byte `H` field and the `itf_idx + 1` argument is dropped. -/
def cdcUnionFuncDesc (itf_idx : Nat) : List Nat :=
  [5, 0x24, 6, itf_idx % 256, itf_idx / 256 % 256]

/-- `CDCControlInterface.get_itf_descriptor` (cdc.py 93-140), with the
standard interface descriptor `itf` supplied by the framework. -/
def CDCControlInterface.get_itf_descriptor (itf : List Nat) (itf_idx : Nat) : List Nat :=
  cdcIAD itf_idx ++ itf ++ cdcHeaderFuncDesc ++ cdcCallManagementFuncDesc ++
    cdcAbstractControlFuncDesc ++ cdcUnionFuncDesc itf_idx

/-- Mutable state of a `CDCControlInterface` (cdc.py 81-91). The break
callback is omitted: invoking it is an external effect that never changes
this state. -/
structure CDCControlInterface where
  rts : Option Bool
  dtr : Option Bool
  baudrate : Option Nat
  stop_bits : Nat
  parity : Nat
  data_bits : Option Nat
  line_coding_state : List Nat
deriving DecidableEq

/-- `CDCControlInterface.__init__` (cdc.py 81-91):
`line_coding_state = bytearray(7)`. -/
def CDCControlInterface.mkInit : CDCControlInterface :=
  { rts := none, dtr := none, baudrate := none, stop_bits := 0, parity := 0,
    data_bits := none, line_coding_state := List.replicate 7 0 }

/-- Modelled from the spec: `REQ_TYPE_CLASS` lives in `usbd/utils.py`,
which is not under src/; class requests have bmRequestType type bits
(bits 5-6) equal to 1. -/
def REQ_TYPE_CLASS : Nat := 1

/-- Modelled from the spec: `utils.split_bmRequestType` is not under
src/. Standard USB decomposition of bmRequestType into
(recipient bits 0-4, type bits 5-6, direction bit 7). -/
def split_bmRequestType (bm : Nat) : Nat × Nat × Nat :=
  (bm % 32, bm / 32 % 4, bm / 128 % 2)

/-- Control transfer stages. The numeric `STAGE_SETUP` / `STAGE_DATA` /
`STAGE_ACK` constants live in `usbd/utils.py` (not under src/); only
their distinctness matters, so they are modelled as an enumeration. -/
inductive Stage where
  | setup
  | data
  | ack
deriving DecidableEq

/-- What `handle_interface_control_xfer` returns to the framework:
`lineCoding` stands for returning `self.line_coding_state` (the buffer
that the framework fills during the DATA stage, or sends for a GET),
`ackBytes` for a literal byte-string reply such as the empty bytes, and `ok` for
the final `return True`. -/
inductive CDCReply where
  | lineCoding
  | ackBytes (b : List Nat)
  | ok
deriving DecidableEq

/-- Little-endian uint32 at the head of the 7-byte line-coding record,
as read by the unpack call with format <LBBB (cdc.py 172-173). -/
def leU32 (p : List Nat) : Nat :=
  p.getD 0 0 + 256 * p.getD 1 0 + 65536 * p.getD 2 0 + 16777216 * p.getD 3 0

/-- `CDCControlInterface.handle_interface_control_xfer(stage, request)`
(cdc.py 146-174). A SETUP-stage branch that matches returns immediately;
anything unmatched falls through to `return True`. The SEND_BREAK branch
invokes the registered callback (an external effect) and returns the
empty bytes without changing this state. -/
def CDCControlInterface.handle_interface_control_xfer
    (s : CDCControlInterface) (stage : Stage)
    (request : Nat × Nat × Nat × Nat × Nat) : CDCControlInterface × CDCReply :=
  match request with
  | (bmRequestType, bRequest, wValue, _, _) =>
    let req_type := (split_bmRequestType bmRequestType).2.1
    match stage with
    | .setup =>
      if req_type = REQ_TYPE_CLASS then
        if bRequest = 0x20 then (s, .lineCoding)
        else if bRequest = 0x21 then (s, .lineCoding)
        else if bRequest = 0x22 then
          ({ s with dtr := some (wValue &&& 0x1 != 0), rts := some (wValue &&& 0x2 != 0) },
           .ackBytes [])
        else if bRequest = 0x23 then (s, .ackBytes [])
        else (s, .ok)
      else (s, .ok)
    | .data =>
      if req_type = REQ_TYPE_CLASS then
        if bRequest = 0x20 then
          ({ s with
              baudrate := some (leU32 s.line_coding_state),
              stop_bits := s.line_coding_state.getD 4 0,
              parity := s.line_coding_state.getD 5 0,
              data_bits := some (s.line_coding_state.getD 6 0) },
           .ok)
        else (s, .ok)
      else (s, .ok)
    | .ack => (s, .ok)

/-- `CDCControlInterface.get_control_line()` (cdc.py 181-182). -/
def CDCControlInterface.get_control_line (s : CDCControlInterface) :
    Option Bool × Option Bool :=
  (s.dtr, s.rts)

/-- The busy-wait of `CDCDataInterface.read` (cdc.py 212-224) together
with `_cb_rx` (cdc.py 226-231), abstracted over the sequence of transfer
completions delivered before the call returns. Each completion appends
its bytes to `total_rx`; `_cb_rx` resubmits only while the accumulated
count is below `nbytes`, and the wait loop returns once the count
reaches `nbytes`; an exhausted completion list is the timeout case. -/
def CDCDataInterface.readLoop (nbytes : Nat) (total_rx : List Nat) :
    List (List Nat) → List Nat
  | [] => total_rx
  | c :: rest =>
    if (total_rx ++ c).length < nbytes then
      CDCDataInterface.readLoop nbytes (total_rx ++ c) rest
    else
      total_rx ++ c

/-- `CDCDataInterface.read(nbytes)` (cdc.py 212-224): starts from an
empty accumulation buffer. -/
def CDCDataInterface.read (nbytes : Nat) (chunks : List (List Nat)) : List Nat :=
  CDCDataInterface.readLoop nbytes [] chunks

theorem list_set_append_len {α : Type} (l1 l2 : List α) (a : α) :
    (l1 ++ l2).set l1.length a = l1 ++ l2.set 0 a := by
  induction l1 with
  | nil => simp
  | cons x t ih => simp [List.set, ih]

/-- Putting `xs` into a buffer already holding the prefix `ys` (write
index at `ys.length`, read index 0) succeeds for every byte while the
total stays below the capacity. -/
theorem putList_fill (N : Nat) (xs : List Nat) :
    ∀ ys : List Nat, ys.length + xs.length < N →
      RingBuf.putList
        { data := ys ++ List.replicate (N - ys.length) 0, size := N,
          index_put := ys.length, index_get := 0 } xs
        = { data := (ys ++ xs) ++ List.replicate (N - (ys.length + xs.length)) 0,
            size := N, index_put := ys.length + xs.length, index_get := 0 } := by
  induction xs with
  | nil => intro ys h; simp [RingBuf.putList]
  | cons x t ih =>
    intro ys h
    have hlc : (x :: t).length = t.length + 1 := List.length_cons x t
    rw [hlc] at h
    have hlt : ys.length + 1 < N := by omega
    have hmod : (ys.length + 1) % N = ys.length + 1 := Nat.mod_eq_of_lt hlt
    have hset : (ys ++ List.replicate (N - ys.length) 0).set ys.length x
        = (ys ++ [x]) ++ List.replicate (N - (ys.length + 1)) 0 := by
      have hylen : ys.length < (ys ++ List.replicate (N - ys.length) 0).length := by
        simp only [List.length_append, List.length_replicate]
        omega
      rw [List.set_eq_take_cons_drop x hylen, List.take_left,
        List.drop_append, List.drop_replicate, Nat.sub_sub]
      simp [List.append_assoc]
    have hput :
        (RingBuf.put
          { data := ys ++ List.replicate (N - ys.length) 0, size := N,
            index_put := ys.length, index_get := 0 } x).1
          = { data := (ys ++ [x]) ++ List.replicate (N - (ys.length + 1)) 0, size := N,
              index_put := ys.length + 1, index_get := 0 } := by
      simp only [RingBuf.put, hmod]
      rw [if_pos (show (0 : Nat) ≠ ys.length + 1 by omega)]
      simp [hset]
    have hstep :
        RingBuf.putList
          { data := ys ++ List.replicate (N - ys.length) 0, size := N,
            index_put := ys.length, index_get := 0 } (x :: t)
          = RingBuf.putList
              { data := (ys ++ [x]) ++ List.replicate (N - (ys.length + 1)) 0, size := N,
                index_put := ys.length + 1, index_get := 0 } t := by
      simp only [RingBuf.putList, List.foldl_cons]
      rw [hput]
    rw [hstep]
    have h2 : (ys ++ [x]).length + t.length < N := by
      rw [List.length_append, List.length_singleton]
      omega
    have h3 := ih (ys ++ [x]) h2
    rw [List.length_append, List.length_singleton] at h3
    rw [h3]
    have harith : ys.length + (x :: t).length = ys.length + 1 + t.length := by
      rw [hlc]; omega
    rw [harith]
    simp [List.append_assoc]

/-- Draining a buffer whose read index trails the write index by `m`
returns the stored bytes in order and stops at the write index (no index
ever wraps while `k < N`). -/
theorem getN_run (N : Nat) (d : List Nat) (k : Nat) (hk : k < N) (hd : d.length = N) :
    ∀ (m j : Nat), j + m = k →
      RingBuf.getN { data := d, size := N, index_put := k, index_get := j } m
        = ({ data := d, size := N, index_put := k, index_get := k },
           (d.drop j).take m) := by
  intro m
  induction m with
  | zero =>
    intro j hj
    have : j = k := by omega
    subst this
    simp [RingBuf.getN]
  | succ m ih =>
    intro j hj
    have hne : j ≠ k := by omega
    have hjN : j + 1 < N := by omega
    have hget :
        RingBuf.get { data := d, size := N, index_put := k, index_get := j }
          = ({ data := d, size := N, index_put := k, index_get := j + 1 },
             some (d.getD j 0)) := by
      unfold RingBuf.get
      rw [if_neg hne]
      have : (j + 1) % N = j + 1 := Nat.mod_eq_of_lt hjN
      simp [this]
    simp only [RingBuf.getN, hget]
    rw [ih (j + 1) (by omega)]
    have hjd : j < d.length := by omega
    have hdrop : d.drop j = d[j] :: d.drop (j + 1) := List.drop_eq_getElem_cons hjd
    rw [hdrop, List.take_succ_cons, List.getD_eq_getElem d 0 hjd]

/-- Claim C5 counterexample: for capacity `N = 1` the claim asserts that
after putting `N - 1 = 0` bytes the buffer is non-empty, but a fresh
buffer with no bytes put is empty. -/
theorem c5_counterexample :
    RingBuf.putList (RingBuf.init 1) [] = RingBuf.init 1
  ∧ (RingBuf.putList (RingBuf.init 1) []).is_empty = true
  ∧ ¬ (RingBuf.putList (RingBuf.init 1) []).is_empty = false := by
  decide

/-- Filling a fresh buffer: while fewer bytes than the capacity have been
put, every put succeeds and the bytes sit at the front of `data`. -/
theorem putList_init (N : Nat) (xs : List Nat) (h : xs.length < N) :
    RingBuf.putList (RingBuf.init N) xs
      = { data := xs ++ List.replicate (N - xs.length) 0, size := N,
          index_put := xs.length, index_get := 0 } := by
  have h0 := putList_fill N xs [] (by simpa using h)
  simpa [RingBuf.init] using h0

/-- Claim C5 (amended): for capacity `N ≥ 2`, after putting `N - 1` bytes
into a fresh buffer, `is_empty` is false, a further `put` fails (returns
`None`, state unchanged), draining with `N - 1` gets returns exactly the
stored bytes in FIFO order and leaves the buffer empty (a further `get`
returns `None`), and `get` returns `None` precisely when the read index
equals the write index. The claim as stated fails only at `N = 1`, where
the buffer is still empty after its `N - 1 = 0` puts. -/
theorem c5_amended (N : Nat) (xs : List Nat) (y : Nat) (rb : RingBuf)
    (hN : 2 ≤ N) (hlen : xs.length = N - 1)
    (hbytes : xs.all (fun b => decide (b < 256)) = true) :
    (RingBuf.putList (RingBuf.init N) xs).is_empty = false
  ∧ (RingBuf.putList (RingBuf.init N) xs).put y = (RingBuf.putList (RingBuf.init N) xs, none)
  ∧ ((RingBuf.putList (RingBuf.init N) xs).getN (N - 1)).2 = xs
  ∧ ((RingBuf.putList (RingBuf.init N) xs).getN (N - 1)).1.is_empty = true
  ∧ (((RingBuf.putList (RingBuf.init N) xs).getN (N - 1)).1.get).2 = none
  ∧ ((rb.get).2 = none ↔ rb.index_get = rb.index_put) := by
  have hxs : xs.length < N := by omega
  have hfill := putList_init N xs hxs
  rw [hlen] at hfill
  have hrep : N - (N - 1) = 1 := by omega
  rw [hrep, List.replicate_one] at hfill
  have hdlen : (xs ++ [0]).length = N := by
    rw [List.length_append, List.length_singleton]
    omega
  have hg := getN_run N (xs ++ [0]) (N - 1) (by omega) hdlen (N - 1) 0 (by omega)
  refine ⟨?_, ?_, ?_, ?_, ?_, ?_⟩
  · rw [hfill]
    simp only [RingBuf.is_empty, beq_eq_false_iff_ne]
    omega
  · rw [hfill]
    simp only [RingBuf.put]
    have hN1 : N - 1 + 1 = N := by omega
    rw [hN1, Nat.mod_self, if_neg (show ¬(0 : Nat) ≠ 0 by simp)]
  · rw [hfill, hg]
    simp only [List.drop_zero]
    rw [← hlen, List.take_left]
  · rw [hfill, hg]
    simp [RingBuf.is_empty]
  · rw [hfill, hg]
    simp [RingBuf.get]
  · by_cases hrb : rb.index_get = rb.index_put <;> simp [RingBuf.get, hrb]

/-- Witness for claim C5 (amended) at `N = 3`, `xs = [10, 20]`. -/
theorem c5_amended_witness :
    2 ≤ 3
  ∧ ([10, 20] : List Nat).length = 3 - 1
  ∧ ([10, 20] : List Nat).all (fun b => decide (b < 256)) = true
  ∧ ((RingBuf.putList (RingBuf.init 3) [10, 20]).is_empty = false
      ∧ (RingBuf.putList (RingBuf.init 3) [10, 20]).put 99
          = (RingBuf.putList (RingBuf.init 3) [10, 20], none)
      ∧ ((RingBuf.putList (RingBuf.init 3) [10, 20]).getN (3 - 1)).2 = [10, 20]
      ∧ ((RingBuf.putList (RingBuf.init 3) [10, 20]).getN (3 - 1)).1.is_empty = true
      ∧ (((RingBuf.putList (RingBuf.init 3) [10, 20]).getN (3 - 1)).1.get).2 = none
      ∧ (((RingBuf.init 1).get).2 = none
          ↔ (RingBuf.init 1).index_get = (RingBuf.init 1).index_put)) :=
  ⟨by decide, by decide, by decide,
   c5_amended 3 [10, 20] 99 (RingBuf.init 1) (by decide) (by decide) (by decide)⟩

theorem emb_id_false (n i : Nat) : MIDIInterface.emb_id n false i = 1 + 2 * i := by
  simp [MIDIInterface.emb_id]

theorem emb_id_true (n i : Nat) : MIDIInterface.emb_id n true i = 1 + 2 * (i + n) := by
  simp [MIDIInterface.emb_id]

/-- Claim C2: the embedded jack ID function computes
`1 + 2 * (index + (direction == tx ? numRx : 0))`; all generated embedded
IDs are odd, pairwise distinct and `numRx + numTx` in count; each
external jack ID is its paired embedded ID plus one; and every rx-group
embedded ID is lower than every tx-group embedded ID. -/
theorem c2_jack_ids (num_rx num_tx idx2 : Nat) (tx2 : Bool) (e a b : Nat)
    (he : e ∈ MIDIInterface.embIds num_rx num_tx)
    (ha : a ∈ MIDIInterface.rxEmbIds num_rx)
    (hb : b ∈ MIDIInterface.txEmbIds num_rx num_tx) :
    MIDIInterface.emb_id num_rx tx2 idx2 = 1 + 2 * (idx2 + if tx2 then num_rx else 0)
  ∧ e % 2 = 1
  ∧ (MIDIInterface.embIds num_rx num_tx).Nodup
  ∧ (MIDIInterface.embIds num_rx num_tx).length = num_rx + num_tx
  ∧ MIDIInterface.ext_id num_rx tx2 idx2 = MIDIInterface.emb_id num_rx tx2 idx2 + 1
  ∧ a < b := by
  refine ⟨rfl, ?_, ?_, ?_, rfl, ?_⟩
  · rcases List.mem_append.1
      (by simpa [MIDIInterface.embIds] using he) with hre | hte
    · obtain ⟨i, hi, rfl⟩ : ∃ i < num_rx, MIDIInterface.emb_id num_rx false i = e := by
        simpa [MIDIInterface.rxEmbIds] using hre
      rw [emb_id_false]
      omega
    · obtain ⟨i, hi, rfl⟩ : ∃ i < num_tx, MIDIInterface.emb_id num_rx true i = e := by
        simpa [MIDIInterface.txEmbIds] using hte
      rw [emb_id_true]
      omega
  · simp only [MIDIInterface.embIds, MIDIInterface.rxEmbIds, MIDIInterface.txEmbIds]
    refine List.Nodup.append ?_ ?_ ?_
    · refine (List.nodup_range num_rx).map ?_
      intro p q hpq
      rw [emb_id_false, emb_id_false] at hpq
      omega
    · refine (List.nodup_range num_tx).map ?_
      intro p q hpq
      rw [emb_id_true, emb_id_true] at hpq
      omega
    · rw [List.disjoint_left]
      intro z hz1 hz2
      obtain ⟨i, hi, rfl⟩ : ∃ i < num_rx, MIDIInterface.emb_id num_rx false i = z := by
        simpa using hz1
      obtain ⟨j, hj, hji⟩ : ∃ j < num_tx,
          MIDIInterface.emb_id num_rx true j = MIDIInterface.emb_id num_rx false i := by
        simpa using hz2
      rw [emb_id_true, emb_id_false] at hji
      omega
  · simp [MIDIInterface.embIds, MIDIInterface.rxEmbIds, MIDIInterface.txEmbIds]
  · obtain ⟨i, hi, rfl⟩ : ∃ i < num_rx, MIDIInterface.emb_id num_rx false i = a := by
      simpa [MIDIInterface.rxEmbIds] using ha
    obtain ⟨j, hj, rfl⟩ : ∃ j < num_tx, MIDIInterface.emb_id num_rx true j = b := by
      simpa [MIDIInterface.txEmbIds] using hb
    rw [emb_id_false, emb_id_true]
    omega

/-- Witness for claim C2 at `numRx = numTx = 2`. -/
theorem c2_jack_ids_witness :
    1 ∈ MIDIInterface.embIds 2 2
  ∧ 3 ∈ MIDIInterface.rxEmbIds 2
  ∧ 7 ∈ MIDIInterface.txEmbIds 2 2
  ∧ (MIDIInterface.emb_id 2 true 1 = 1 + 2 * (1 + if true then 2 else 0)
      ∧ 1 % 2 = 1
      ∧ (MIDIInterface.embIds 2 2).Nodup
      ∧ (MIDIInterface.embIds 2 2).length = 2 + 2
      ∧ MIDIInterface.ext_id 2 true 1 = MIDIInterface.emb_id 2 true 1 + 1
      ∧ 3 < 7) :=
  ⟨by decide, by decide, by decide,
   c2_jack_ids 2 2 1 true 1 3 7 (by decide) (by decide) (by decide)⟩

/-- Claim C1 evaluated at the failing input `numRx = numTx = 1` (the
constructor defaults): the MS header declares
`wTotalLength = 7 + 2*(6+9)*(1+1) = 67`, but the jack descriptors
actually emitted total `30` bytes, so the value the claim (and the
field comment in the code) require is `7 + 30 = 37`. -/
theorem c1_wtotal_bug :
    (cs_ms_interface 1 1).getD 5 0 + 256 * (cs_ms_interface 1 1).getD 6 0 = 67
  ∧ (MIDIInterface.rxJacks 1 ++ MIDIInterface.txJacks 1 1).length = 30
  ∧ (67 : Nat) ≠ 7 + 30 := by
  decide

/-- Claim C3 counterexample: at `numRx = 252` the length field of the CS
descriptor after the bulk OUT endpoint is the single byte
`(4 + 252) % 256 = 0`, while the descriptor lists 252 jack IDs, so the
field does not equal `4 + 252`. -/
theorem c3_counterexample :
    (MIDIInterface.cs_out 252).getD 0 0 = 0
  ∧ ((MIDIInterface.cs_out 252).drop 4).length = 252
  ∧ (MIDIInterface.cs_out 252).getD 0 0 ≠ 4 + 252 := by
  decide

/-- Claim C3 (amended): the endpoint descriptor block is the bulk OUT
endpoint immediately followed by its CS descriptor, then the bulk IN
endpoint immediately followed by its CS descriptor; the OUT CS
descriptor lists exactly the embedded-jack ID bytes of the rx jacks as
emitted in the interface descriptor (byte 4 of each rx chunk), in the
same order, and the IN CS descriptor lists the embedded-jack ID bytes of
the tx jacks (byte 10 of each tx chunk); the length field of each CS
descriptor is the byte `(4 + jackCount) % 256` (equal to `4 + jackCount`
whenever that fits in one byte), and it lists exactly `jackCount` IDs. -/
theorem c3_amended (num_rx num_tx ep_addr : Nat) :
    (MIDIInterface.get_endpoint_descriptors num_rx num_tx ep_addr).1
      = endpoint_descriptor ((ep_addr + 1) ||| EP_OUT_FLAG) 2 64 0
          ++ MIDIInterface.cs_out num_rx
          ++ endpoint_descriptor (ep_addr + 2) 2 64 0
          ++ MIDIInterface.cs_in num_rx num_tx
  ∧ MIDIInterface.rxJacks num_rx
      = ((List.range num_rx).map (MIDIInterface.rxJackChunk num_rx)).flatten
  ∧ MIDIInterface.txJacks num_rx num_tx
      = ((List.range num_tx).map (MIDIInterface.txJackChunk num_rx)).flatten
  ∧ (MIDIInterface.cs_out num_rx).drop 4
      = (List.range num_rx).map
          (fun idx => (MIDIInterface.rxJackChunk num_rx idx).getD 4 0)
  ∧ (MIDIInterface.cs_in num_rx num_tx).drop 4
      = (List.range num_tx).map
          (fun idx => (MIDIInterface.txJackChunk num_rx idx).getD 10 0)
  ∧ (MIDIInterface.cs_out num_rx).getD 0 0 = (4 + num_rx) % 256
  ∧ ((MIDIInterface.cs_out num_rx).drop 4).length = num_rx
  ∧ (MIDIInterface.cs_in num_rx num_tx).getD 0 0 = (4 + num_tx) % 256
  ∧ ((MIDIInterface.cs_in num_rx num_tx).drop 4).length = num_tx := by
  refine ⟨rfl, rfl, rfl, ?_, ?_, ?_, ?_, ?_, ?_⟩
  · simp [MIDIInterface.cs_out, MIDIInterface.rxJackChunk, jack_in_desc, jack_out_desc,
      List.getD_cons_succ, List.getD_cons_zero]
  · simp [MIDIInterface.cs_in, MIDIInterface.txJackChunk, jack_in_desc, jack_out_desc,
      List.getD_cons_succ, List.getD_cons_zero]
  · simp [MIDIInterface.cs_out]
  · simp [MIDIInterface.cs_out]
  · simp [MIDIInterface.cs_in]
  · simp [MIDIInterface.cs_in]

/-- Claim C4 evaluated at the failing input `itf_idx = 0`: the emitted
control-interface descriptor ends with the union functional descriptor
bytes `[5, 0x24, 6, 0, 0]`, whereas the claim requires
`[5, 0x24, 6, itf_idx, itf_idx + 1] = [5, 0x24, 6, 0, 1]`: the pack
format consumes `itf_idx` as a two-byte field and drops the
subordinate-interface argument. -/
theorem c4_union_bug (itf : List Nat) :
    CDCControlInterface.get_itf_descriptor itf 0
      = cdcIAD 0 ++ itf ++ cdcHeaderFuncDesc ++ cdcCallManagementFuncDesc
          ++ cdcAbstractControlFuncDesc ++ [5, 0x24, 6, 0, 0]
  ∧ cdcUnionFuncDesc 0 = [5, 0x24, 6, 0, 0]
  ∧ cdcUnionFuncDesc 0 ≠ [5, 0x24, 6, 0, 1] := by
  refine ⟨rfl, by decide, by decide⟩

/-- Claim C9 evaluated on the code: the receive callback does put every
received byte into the ring buffer one at a time, but it resubmits on
the hard-coded endpoint `0x03`, while `start_receive_data` submits on
`self.ep_in`, which after enumeration with endpoint base address 0
equals 2 — a different endpoint. -/
theorem c9_resubmit_bug :
    (∀ (s : MIDIInterface) (n : Nat), (MIDIInterface.receive_data_callback s n).2.ep = 3)
  ∧ (∀ s : MIDIInterface, (MIDIInterface.start_receive_data s).ep = s.ep_in)
  ∧ (MIDIInterface.get_endpoint_descriptors 1 1 0).2.2 = 2
  ∧ midiAfterEnum.ep_in = 2
  ∧ (MIDIInterface.receive_data_callback midiAfterEnum 0).2.ep ≠ midiAfterEnum.ep_in
  ∧ (MIDIInterface.receive_data_callback midiAfterEnum 0).2.buf = midiAfterEnum.rx_data
  ∧ (MIDIInterface.receive_data_callback midiRxExample 2).1.rb
      = { data := [7, 9, 0, 0], size := 4, index_put := 2, index_get := 0 } := by
  refine ⟨fun s n => rfl, fun s => rfl, by decide, by decide, by decide, by decide, by decide⟩

/-- Claim C10: a freshly constructed `CDCControlInterface` reports
`(None, None)` from `get_control_line`, a third state distinct from
`(False, False)`. -/
theorem c10_initial_control_line :
    CDCControlInterface.get_control_line CDCControlInterface.mkInit = (none, none)
  ∧ CDCControlInterface.get_control_line CDCControlInterface.mkInit
      ≠ (some false, some false) := by
  decide

/-- Claim C6: for a class-type SET_LINE_CODING transfer, the SETUP stage
returns the 7-byte line-coding buffer as the DATA-stage destination, and
the DATA stage decodes that buffer little-endian (uint32 baud, uint8
stop-bits code, uint8 parity code, uint8 data-bits) into the fields, so
the decoded fields match the wire record exactly. -/
theorem c6_set_line_coding (s : CDCControlInterface) (bm v i l : Nat) (p : List Nat)
    (hclass : (split_bmRequestType bm).2.1 = REQ_TYPE_CLASS)
    (hp : p.length = 7) :
    CDCControlInterface.handle_interface_control_xfer s Stage.setup (bm, 0x20, v, i, l)
      = (s, CDCReply.lineCoding)
  ∧ CDCControlInterface.handle_interface_control_xfer
        { s with line_coding_state := p } Stage.data (bm, 0x20, v, i, l)
      = ({ s with
            line_coding_state := p
            baudrate := some (leU32 p)
            stop_bits := p.getD 4 0
            parity := p.getD 5 0
            data_bits := some (p.getD 6 0) }, CDCReply.ok) := by
  constructor
  · simp [CDCControlInterface.handle_interface_control_xfer, hclass]
  · simp [CDCControlInterface.handle_interface_control_xfer, hclass]

/-- Witness for claim C6: delivering the encoding of 9600 baud, 1 stop
bit (code 0), no parity (code 0), 8 data bits. -/
theorem c6_set_line_coding_witness :
    (split_bmRequestType 0x21).2.1 = REQ_TYPE_CLASS
  ∧ ([0x80, 0x25, 0, 0, 0, 0, 8] : List Nat).length = 7
  ∧ CDCControlInterface.handle_interface_control_xfer CDCControlInterface.mkInit
        Stage.setup (0x21, 0x20, 0, 0, 7)
      = (CDCControlInterface.mkInit, CDCReply.lineCoding)
  ∧ (CDCControlInterface.handle_interface_control_xfer
        { CDCControlInterface.mkInit with
            line_coding_state := [0x80, 0x25, 0, 0, 0, 0, 8] }
        Stage.data (0x21, 0x20, 0, 0, 7)).1.baudrate = some 9600
  ∧ (CDCControlInterface.handle_interface_control_xfer
        { CDCControlInterface.mkInit with
            line_coding_state := [0x80, 0x25, 0, 0, 0, 0, 8] }
        Stage.data (0x21, 0x20, 0, 0, 7)).1.stop_bits = 0
  ∧ (CDCControlInterface.handle_interface_control_xfer
        { CDCControlInterface.mkInit with
            line_coding_state := [0x80, 0x25, 0, 0, 0, 0, 8] }
        Stage.data (0x21, 0x20, 0, 0, 7)).1.parity = 0
  ∧ (CDCControlInterface.handle_interface_control_xfer
        { CDCControlInterface.mkInit with
            line_coding_state := [0x80, 0x25, 0, 0, 0, 0, 8] }
        Stage.data (0x21, 0x20, 0, 0, 7)).1.data_bits = some 8 := by
  have h := c6_set_line_coding CDCControlInterface.mkInit 0x21 0 0 7
      [0x80, 0x25, 0, 0, 0, 0, 8] (by decide) (by decide)
  refine ⟨by decide, by decide, h.1, ?_, ?_, ?_, ?_⟩
  · rw [h.2]
    decide
  · rw [h.2]
    decide
  · rw [h.2]
    decide
  · rw [h.2]
    decide

/-- Claim C7: a class-type SET_CONTROL_LINE_STATE request at SETUP stage
sets `dtr` from bit 0 and `rts` from bit 1 of the request value and
returns an empty acknowledgment, leaving every other field (in
particular the line-coding state) unchanged. -/
theorem c7_set_control_line_state (s : CDCControlInterface) (bm v i l : Nat)
    (hclass : (split_bmRequestType bm).2.1 = REQ_TYPE_CLASS) :
    CDCControlInterface.handle_interface_control_xfer s Stage.setup (bm, 0x22, v, i, l)
      = ({ s with dtr := some (v &&& 0x1 != 0), rts := some (v &&& 0x2 != 0) },
         CDCReply.ackBytes []) := by
  simp [CDCControlInterface.handle_interface_control_xfer, hclass]

/-- Witness for claim C7 at request values 0x3 and 0x0. -/
theorem c7_set_control_line_state_witness :
    (split_bmRequestType 0x21).2.1 = REQ_TYPE_CLASS
  ∧ CDCControlInterface.handle_interface_control_xfer CDCControlInterface.mkInit
        Stage.setup (0x21, 0x22, 3, 0, 0)
      = ({ CDCControlInterface.mkInit with dtr := some true, rts := some true },
         CDCReply.ackBytes [])
  ∧ CDCControlInterface.handle_interface_control_xfer CDCControlInterface.mkInit
        Stage.setup (0x21, 0x22, 0, 0, 0)
      = ({ CDCControlInterface.mkInit with dtr := some false, rts := some false },
         CDCReply.ackBytes []) := by
  refine ⟨by decide, ?_, ?_⟩
  · rw [c7_set_control_line_state CDCControlInterface.mkInit 0x21 3 0 0 (by decide)]
    decide
  · rw [c7_set_control_line_state CDCControlInterface.mkInit 0x21 0 0 0 (by decide)]
    decide

/-- Claim C8 counterexample: `read(1)` with a single completion that
delivered two bytes returns both bytes — more than `nbytes`. -/
theorem c8_counterexample :
    CDCDataInterface.read 1 [[10, 20]] = [10, 20]
  ∧ ¬ (CDCDataInterface.read 1 [[10, 20]]).length ≤ 1 := by
  decide

theorem readLoop_spec (nbytes : Nat) :
    ∀ (chunks : List (List Nat)) (acc : List Nat),
      ∃ k, k ≤ chunks.length
        ∧ CDCDataInterface.readLoop nbytes acc chunks = acc ++ (chunks.take k).flatten
        ∧ (k < chunks.length → nbytes ≤ (acc ++ (chunks.take k).flatten).length)
        ∧ (∀ j, 1 ≤ j → j < k → (acc ++ (chunks.take j).flatten).length < nbytes) := by
  intro chunks
  induction chunks with
  | nil =>
    intro acc
    refine ⟨0, Nat.le_refl 0, by simp [CDCDataInterface.readLoop], by simp, ?_⟩
    intro j h1 h2
    omega
  | cons c rest ih =>
    intro acc
    by_cases hc : (acc ++ c).length < nbytes
    · obtain ⟨k2, hk2, heq, hge, hinv⟩ := ih (acc ++ c)
      refine ⟨k2 + 1, ?_, ?_, ?_, ?_⟩
      · simp only [List.length_cons]
        omega
      · simp only [CDCDataInterface.readLoop, if_pos hc]
        rw [heq]
        simp [List.append_assoc]
      · intro hlt
        have hk3 : k2 < rest.length := by
          simp only [List.length_cons] at hlt
          omega
        have h2 := hge hk3
        simp only [List.take_succ_cons, List.flatten_cons]
        simpa [List.append_assoc] using h2
      · intro j h1 h2
        obtain ⟨j2, rfl⟩ : ∃ j2, j = j2 + 1 := ⟨j - 1, by omega⟩
        simp only [List.take_succ_cons, List.flatten_cons]
        rcases Nat.eq_zero_or_pos j2 with hj0 | hjpos
        · subst hj0
          simpa [List.append_assoc] using hc
        · have h3 := hinv j2 (by omega) (by omega)
          simpa [List.append_assoc] using h3
    · refine ⟨1, ?_, ?_, ?_, ?_⟩
      · simp only [List.length_cons]
        omega
      · simp only [CDCDataInterface.readLoop, if_neg hc]
        simp
      · intro hlt
        simp only [List.take_succ_cons, List.take_zero, List.flatten_cons,
          List.flatten_nil, List.append_nil]
        omega
      · intro j h1 h2
        omega

/-- Claim C8 (amended): `read(nbytes)` returns exactly the bytes
accumulated from the delivered completions at the point of return — the
concatenation of an initial segment of the completion sequence. It
returns before the completion sequence is exhausted only once the
accumulated length has reached `nbytes` (so a short result occurs only
on timeout), and every completion except the last was processed while
the accumulated length was still below `nbytes`. The result can exceed
`nbytes` when the final completion delivers more bytes than the
remaining request (see the counterexample), so its length is not bounded
by `nbytes`. -/
theorem c8_amended (nbytes : Nat) (chunks : List (List Nat)) :
    ∃ k, k ≤ chunks.length
      ∧ CDCDataInterface.read nbytes chunks = (chunks.take k).flatten
      ∧ (k < chunks.length → nbytes ≤ (CDCDataInterface.read nbytes chunks).length)
      ∧ (∀ j, 1 ≤ j → j < k → ((chunks.take j).flatten).length < nbytes) := by
  obtain ⟨k, hk, heq, hge, hinv⟩ := readLoop_spec nbytes chunks []
  simp only [List.nil_append] at heq hge hinv
  refine ⟨k, hk, heq, ?_, hinv⟩
  intro h
  have h2 := hge h
  rw [show CDCDataInterface.read nbytes chunks = (chunks.take k).flatten from heq]
  exact h2
